import Mathlib

/-!
Verification of the detached-JWS Linked Data Signature suite
(`src/lib/JwsLinkedDataSignature.js`) against its natural-language
specification.

The development shallowly embeds the JavaScript source:
* JSON/JS runtime values become the inductive `Json` (JS object fields in
  insertion order; JSON numbers keep their source token, since no code path
  of this suite observes a numeric value beyond truthiness);
* `Uint8Array` byte buffers become `List Nat` with every element `< 256`;
* `TextEncoder`/`TextDecoder` become explicit UTF-8 byte codecs;
* the `base64url-universal` codec becomes `b64encode`/`b64decode`
  (unpadded base64url as the package's `encode` produces; `b64decode` is
  strict — the package's decoder is environment-dependent on malformed
  input and no theorem below depends on that path);
* `JSON.stringify`/`JSON.parse` become `jsonStr`/`jsonParseChars`;
* fallible code returns `Except`.
-/

namespace JwsLds

/-- JSON value as produced by `JSON.parse` in the JS runtime.  Object
fields are kept in insertion order, as JS objects enumerate them; a
duplicate key in the source text overwrites the earlier value in place
(`setField` below), matching `JSON.parse`.  `num` stores the raw number
token: the suite's code never compares a header number to anything but
`false` and strings (always unequal in JS), so only the token's
"zero-ness" (for truthiness) is ever observed. -/
inductive Json where
  | null
  | bool (b : Bool)
  | num (raw : String)
  | str (s : String)
  | arr (elems : List Json)
  | obj (fields : List (String × Json))

/-- JS property write `o[k] = v`: overwrite in place when the key exists
(keeping its position, as JS objects do), else append. -/
def setField : List (String × Json) → String → Json → List (String × Json)
  | [], k, v => [(k, v)]
  | (k', v') :: rest, k, v =>
    if k' = k then (k, v) :: rest else (k', v') :: setField rest k v

/-- First-match field lookup (fields built by `setField` have unique keys,
so first match is the JS property value; a missing key is JS `undefined`). -/
def jsLookup : List (String × Json) → String → Option Json
  | [], _ => none
  | (k', v') :: rest, k => if k' = k then some v' else jsLookup rest k

/-- JS property read `j[k]` for a parsed JSON value: objects look the key
up, every other value (including arrays, whose own keys are numeric
strings) yields `undefined` for the non-numeric keys this suite reads. -/
def jsGet (j : Json) (k : String) : Option Json :=
  match j with
  | .obj fields => jsLookup fields k
  | _ => none

/-- `Object.keys(j).length` for a parsed JSON value: own enumerable keys.
Objects have one per field; arrays one per element (index keys); primitives
have none. -/
def keyCount : Json → Nat
  | .obj fields => fields.length
  | .arr elems => elems.length
  | _ => 0

/-- JS strict equality of a runtime value with a string literal
(`j === s`): true exactly for an equal string. -/
def isStr (j : Json) (s : String) : Bool :=
  match j with
  | .str t => t = s
  | _ => false

/-- Zero-ness of a JSON number token: the value is 0 exactly when every
digit of the mantissa (the part before any exponent marker) is `0`. -/
def numIsZero (raw : String) : Bool :=
  (raw.data.takeWhile (fun c => c ≠ 'e' ∧ c ≠ 'E')).all
    (fun c => !c.isDigit || c = '0')

/-- JS truthiness of a parsed JSON value. -/
def jsTruthy : Json → Bool
  | .null => false
  | .bool b => b
  | .num raw => !numIsZero raw
  | .str s => !s.isEmpty
  | .arr _ => true
  | .obj _ => true

/-- `typeof j === 'object'` for a parsed JSON value: true for `null`,
arrays and objects. -/
def jsTypeofObject : Json → Bool
  | .null => true
  | .arr _ => true
  | .obj _ => true
  | _ => false

/-! ## UTF-8 (`TextEncoder` / `TextDecoder`) -/

/-- UTF-8 encoding of one unicode scalar value (`TextEncoder`). -/
def utf8Char (c : Char) : List Nat :=
  if c.toNat < 0x80 then [c.toNat]
  else if c.toNat < 0x800 then [0xC0 + c.toNat / 64, 0x80 + c.toNat % 64]
  else if c.toNat < 0x10000 then
    [0xE0 + c.toNat / 4096, 0x80 + c.toNat / 64 % 64, 0x80 + c.toNat % 64]
  else
    [0xF0 + c.toNat / 262144, 0x80 + c.toNat / 4096 % 64,
      0x80 + c.toNat / 64 % 64, 0x80 + c.toNat % 64]

/-- `TextEncoder.encode` over a string's characters. -/
def utf8Bytes : List Char → List Nat
  | [] => []
  | c :: cs => utf8Char c ++ utf8Bytes cs

/-- Code point of a two-byte UTF-8 sequence, `none` when malformed. -/
def utf8Cp2 (b b2 : Nat) : Option Nat :=
  if 0x80 ≤ b2 ∧ b2 < 0xC0 then some ((b - 0xC0) * 64 + (b2 - 0x80))
  else none

/-- Code point of a three-byte UTF-8 sequence, `none` when malformed
(overlong or a surrogate). -/
def utf8Cp3 (b b2 b3 : Nat) : Option Nat :=
  if (0x80 ≤ b2 ∧ b2 < 0xC0) ∧ (0x80 ≤ b3 ∧ b3 < 0xC0) ∧
      0x800 ≤ (b - 0xE0) * 4096 + (b2 - 0x80) * 64 + (b3 - 0x80) ∧
      ((b - 0xE0) * 4096 + (b2 - 0x80) * 64 + (b3 - 0x80) < 0xD800 ∨
        0xE000 ≤ (b - 0xE0) * 4096 + (b2 - 0x80) * 64 + (b3 - 0x80)) then
    some ((b - 0xE0) * 4096 + (b2 - 0x80) * 64 + (b3 - 0x80))
  else none

/-- Code point of a four-byte UTF-8 sequence, `none` when malformed. -/
def utf8Cp4 (b b2 b3 b4 : Nat) : Option Nat :=
  if (0x80 ≤ b2 ∧ b2 < 0xC0) ∧ (0x80 ≤ b3 ∧ b3 < 0xC0) ∧
      (0x80 ≤ b4 ∧ b4 < 0xC0) ∧
      0x10000 ≤ (b - 0xF0) * 262144 + (b2 - 0x80) * 4096 +
        (b3 - 0x80) * 64 + (b4 - 0x80) ∧
      (b - 0xF0) * 262144 + (b2 - 0x80) * 4096 + (b3 - 0x80) * 64 +
        (b4 - 0x80) < 0x110000 then
    some ((b - 0xF0) * 262144 + (b2 - 0x80) * 4096 + (b3 - 0x80) * 64 +
      (b4 - 0x80))
  else none

/-- UTF-8 decoding (`TextDecoder`), fuel-indexed: every step consumes at
least one byte, so fuel equal to the byte count never runs out.  Strict:
malformed sequences yield `none`, where the runtime's default decoder
would substitute U+FFFD; the suite's code immediately feeds the result to
`JSON.parse`, and no theorem below depends on an input with malformed
UTF-8 in the header segment. -/
def utf8Dec : Nat → List Nat → Option (List Char)
  | _, [] => some []
  | 0, _ :: _ => none
  | f + 1, b :: rest =>
    if b < 0x80 then
      (utf8Dec f rest).map (fun cs => Char.ofNat b :: cs)
    else if b < 0xC2 then none
    else if b < 0xE0 then
      match rest with
      | b2 :: r =>
        (utf8Cp2 b b2).bind
          (fun cp => (utf8Dec f r).map (fun cs => Char.ofNat cp :: cs))
      | _ => none
    else if b < 0xF0 then
      match rest with
      | b2 :: b3 :: r =>
        (utf8Cp3 b b2 b3).bind
          (fun cp => (utf8Dec f r).map (fun cs => Char.ofNat cp :: cs))
      | _ => none
    else if b < 0xF5 then
      match rest with
      | b2 :: b3 :: b4 :: r =>
        (utf8Cp4 b b2 b3 b4).bind
          (fun cp => (utf8Dec f r).map (fun cs => Char.ofNat cp :: cs))
      | _ => none
    else none

/-- UTF-8 decoding of a whole byte list. -/
def utf8DecodeBytes (bs : List Nat) : Option (List Char) :=
  utf8Dec bs.length bs

/-! ## base64url (`base64url-universal`: unpadded encode) -/

/-- The base64url alphabet, value order. -/
def alphabet : List Char :=
  ("ABCDEFGHIJKLMNOPQRSTUVWXYZabcdefghijklmnopqrstuvwxyz0123456789-_").data

/-- Index of a character in a list (strict decoder's alphabet lookup). -/
def charIdx : List Char → Char → Option Nat
  | [], _ => none
  | a :: rest, c =>
    if a = c then some 0 else (charIdx rest c).map (· + 1)

/-- Bytes to 6-bit values, 3 bytes per 4 values, final partial group
unpadded (as the package's `encode` emits no `=`). -/
def b64Vals : List Nat → List Nat
  | [] => []
  | [a] => [a / 4, a % 4 * 16]
  | [a, b] => [a / 4, a % 4 * 16 + b / 16, b % 16 * 4]
  | a :: b :: c :: rest =>
    a / 4 :: (a % 4 * 16 + b / 16) :: (b % 16 * 4 + c / 64) :: c % 64 ::
      b64Vals rest

/-- 6-bit values back to bytes; trailing bits short of a byte are dropped;
a group of one leftover value (length ≡ 1 mod 4) is malformed. -/
def b64Unvals : List Nat → Option (List Nat)
  | [] => some []
  | [_] => none
  | [v1, v2] => some [v1 * 4 + v2 / 16]
  | [v1, v2, v3] => some [v1 * 4 + v2 / 16, v2 % 16 * 16 + v3 / 4]
  | v1 :: v2 :: v3 :: v4 :: rest =>
    (b64Unvals rest).map
      (fun bs => (v1 * 4 + v2 / 16) :: (v2 % 16 * 16 + v3 / 4) ::
        (v3 % 4 * 64 + v4) :: bs)

/-- `encode` of `base64url-universal` (unpadded base64url), at the
character-list level. -/
def b64encode (bs : List Nat) : List Char :=
  (b64Vals bs).map (fun v => alphabet.getD v 'A')

/-- Characters to 6-bit values; `none` on a character outside the
alphabet. -/
def charVals : List Char → Option (List Nat)
  | [] => some []
  | c :: rest =>
    match charIdx alphabet c with
    | none => none
    | some v => (charVals rest).map (v :: ·)

/-- `decode` of `base64url-universal`, strict (see module comment). -/
def b64decode (cs : List Char) : Option (List Nat) :=
  match charVals cs with
  | none => none
  | some vs => b64Unvals vs

/-! ## `String.split('.')` -/

/-- JS `s.split(sep)` for a one-character separator, at the character-list
level: `"" → [""]`, `"a.b" → ["a","b"]`, `"a.." → ["a","",""]`. -/
def jsSplit (sep : Char) : List Char → List (List Char)
  | [] => [[]]
  | c :: cs =>
    if c = sep then [] :: jsSplit sep cs
    else
      match jsSplit sep cs with
      | [] => [[c]]
      | h :: t => (c :: h) :: t

/-! ## `JSON.stringify` (no spacing, insertion-order keys) -/

/-- Hex digit (lower case, as `JSON.stringify` emits in `\u00XX`). -/
def hexDigit (n : Nat) : Char :=
  (("0123456789abcdef").data).getD n '0'

/-- `JSON.stringify`'s escaping of one string character. -/
def escapeChar (c : Char) : List Char :=
  if c = '"' then ['\\', '"']
  else if c = '\\' then ['\\', '\\']
  else if c = '\x08' then ['\\', 'b']
  else if c = '\x0C' then ['\\', 'f']
  else if c = '\n' then ['\\', 'n']
  else if c = '\r' then ['\\', 'r']
  else if c = '\t' then ['\\', 't']
  else if c.toNat < 0x20 then
    ['\\', 'u', '0', '0', hexDigit (c.toNat / 16), hexDigit (c.toNat % 16)]
  else [c]

def escapeChars : List Char → List Char
  | [] => []
  | c :: cs => escapeChar c ++ escapeChars cs

/-- A JSON string literal. -/
def strLit (s : String) : List Char :=
  '"' :: escapeChars s.data ++ ['"']

mutual

/-- `JSON.stringify` (on `num` it reproduces the stored token; the suite
only ever stringifies the freshly built header, which has no numbers). -/
def jsonStr : Json → List Char
  | .str s => strLit s
  | .num raw => raw.data
  | .bool b => if b then ("true").data else ("false").data
  | .null => ("null").data
  | .arr elems => '[' :: jsonStrElems elems ++ [']']
  | .obj fields => '{' :: jsonStrFields fields ++ ['}']

def jsonStrElems : List Json → List Char
  | [] => []
  | [x] => jsonStr x
  | x :: y :: rest => jsonStr x ++ ',' :: jsonStrElems (y :: rest)

def jsonStrFields : List (String × Json) → List Char
  | [] => []
  | [(k, v)] => strLit k ++ ':' :: jsonStr v
  | (k, v) :: f :: rest =>
    strLit k ++ ':' :: jsonStr v ++ ',' :: jsonStrFields (f :: rest)

end

/-! ## `JSON.parse` -/

/-- JSON whitespace. -/
def isJsonWs (c : Char) : Bool :=
  c = ' ' || c = '\t' || c = '\n' || c = '\r'

def skipWs : List Char → List Char
  | [] => []
  | c :: cs => if isJsonWs c then skipWs cs else c :: cs

/-- Value of a hex digit character. -/
def hexVal (c : Char) : Option Nat :=
  if '0' ≤ c ∧ c ≤ '9' then some (c.toNat - 48)
  else if 'a' ≤ c ∧ c ≤ 'f' then some (c.toNat - 87)
  else if 'A' ≤ c ∧ c ≤ 'F' then some (c.toNat - 70)
  else none

/-- The character an escape introducer stands for (`\" \\ \/ \b \f \n \r
\t`), `none` for anything else (`\u` is handled separately). -/
def escCharOf (e : Char) : Option Char :=
  if e = '"' then some '"'
  else if e = '\\' then some '\\'
  else if e = '/' then some '/'
  else if e = 'b' then some '\x08'
  else if e = 'f' then some '\x0C'
  else if e = 'n' then some '\n'
  else if e = 'r' then some '\r'
  else if e = 't' then some '\t'
  else none

/-- Body of a JSON string literal, after the opening quote, fuel-indexed
(each step consumes at least one character): the decoded characters and
the input after the closing quote.  A `\uXXXX` escape becomes the
character of that code point (the JS runtime's UTF-16 surrogate halves
have no counterpart among unicode scalar values; no theorem below feeds a
surrogate escape). -/
def parseStrBody : Nat → List Char → Option (List Char × List Char)
  | _, [] => none
  | 0, _ :: _ => none
  | f + 1, c :: rest =>
    if c = '"' then some ([], rest)
    else if c = '\\' then
      match rest with
      | 'u' :: h1 :: h2 :: h3 :: h4 :: r =>
        match hexVal h1, hexVal h2, hexVal h3, hexVal h4 with
        | some v1, some v2, some v3, some v4 =>
          (parseStrBody f r).map
            (fun (s, t) =>
              (Char.ofNat (v1 * 4096 + v2 * 256 + v3 * 16 + v4) :: s, t))
        | _, _, _, _ => none
      | e :: r =>
        match escCharOf e with
        | some d => (parseStrBody f r).map (fun (s, t) => (d :: s, t))
        | none => none
      | [] => none
    else if c.toNat < 0x20 then none
    else (parseStrBody f rest).map (fun (s, t) => (c :: s, t))

/-- A JSON string literal body with self-sufficient fuel. -/
def parseString (cs : List Char) : Option (List Char × List Char) :=
  parseStrBody cs.length cs

/-- One or more decimal digits. -/
def parseDigits : List Char → Option (List Char × List Char)
  | c :: rest =>
    if c.isDigit then
      match rest with
      | c2 :: _ =>
        if c2.isDigit then
          (parseDigits rest).map (fun (d, t) => (c :: d, t))
        else some ([c], rest)
      | [] => some ([c], [])
    else none
  | [] => none

/-- JSON number token (grammar `-?(0|[1-9][0-9]*)(\.[0-9]+)?([eE][+-]?[0-9]+)?`),
returned as its raw characters. -/
def parseNumber (cs : List Char) : Option (List Char × List Char) :=
  let (sign, cs1) :=
    match cs with
    | '-' :: r => (['-'], r)
    | _ => (([] : List Char), cs)
  match cs1 with
  | c :: _ =>
    if ¬ c.isDigit then none
    else
      match parseDigits cs1 with
      | none => none
      | some (int, cs2) =>
        if c = '0' ∧ int.length ≠ 1 then none
        else
          let (frac, cs3) :=
            match cs2 with
            | '.' :: r =>
              match parseDigits r with
              | some (d, t) => ('.' :: d, t)
              | none => ([], '.' :: r)
            | _ => (([] : List Char), cs2)
          match cs2 with
          | '.' :: r =>
            if (parseDigits r).isNone then none
            else
              finishNum (sign ++ int ++ frac) cs3
          | _ => finishNum (sign ++ int ++ frac) cs3
  | [] => none
where
  /-- Optional exponent part, then assemble the token. -/
  finishNum (pre : List Char) (cs : List Char) :
      Option (List Char × List Char) :=
    match cs with
    | e :: r =>
      if e = 'e' ∨ e = 'E' then
        let (sgn, r1) :=
          match r with
          | '+' :: t => (['+'], t)
          | '-' :: t => (['-'], t)
          | _ => (([] : List Char), r)
        match parseDigits r1 with
        | some (d, t) => some (pre ++ e :: sgn ++ d, t)
        | none => none
      else some (pre, cs)
    | [] => some (pre, [])

mutual

/-- `JSON.parse`, fuel-indexed (the top-level call supplies fuel larger
than the input length, which every nesting level strictly consumes). -/
def parseValue : Nat → List Char → Option (Json × List Char)
  | 0, _ => none
  | f + 1, cs =>
    match skipWs cs with
    | '{' :: rest =>
      (match skipWs rest with
      | '}' :: r2 => some (.obj [], r2)
      | r2 => (parseMembers f r2 []).map (fun (m, r) => (Json.obj m, r)))
    | '[' :: rest =>
      (match skipWs rest with
      | ']' :: r2 => some (.arr [], r2)
      | r2 => (parseElems f r2 []).map (fun (l, r) => (Json.arr l, r)))
    | '"' :: rest =>
      (parseString rest).map (fun (s, r) => (Json.str (String.mk s), r))
    | 't' :: 'r' :: 'u' :: 'e' :: rest => some (.bool true, rest)
    | 'f' :: 'a' :: 'l' :: 's' :: 'e' :: rest => some (.bool false, rest)
    | 'n' :: 'u' :: 'l' :: 'l' :: rest => some (.null, rest)
    | other =>
      (parseNumber other).map (fun (tok, r) => (Json.num (String.mk tok), r))

/-- Object members after `{` (input ws-skipped, known not to start with
`}`); a duplicate key overwrites in place, as `JSON.parse` does. -/
def parseMembers : Nat → List Char → List (String × Json) →
    Option (List (String × Json) × List Char)
  | 0, _, _ => none
  | f + 1, cs, acc =>
    match skipWs cs with
    | '"' :: rest =>
      match parseString rest with
      | none => none
      | some (k, r1) =>
        match skipWs r1 with
        | ':' :: r2 =>
          match parseValue f r2 with
          | none => none
          | some (v, r3) =>
            let acc' := setField acc (String.mk k) v
            match skipWs r3 with
            | ',' :: r4 => parseMembers f r4 acc'
            | '}' :: r4 => some (acc', r4)
            | _ => none
        | _ => none
    | _ => none

/-- Array elements after `[` (input ws-skipped, known not to start with
`]`). -/
def parseElems : Nat → List Char → List Json →
    Option (List Json × List Char)
  | 0, _, _ => none
  | f + 1, cs, acc =>
    match parseValue f cs with
    | none => none
    | some (v, r1) =>
      match skipWs r1 with
      | ',' :: r2 => parseElems f r2 (acc ++ [v])
      | ']' :: r2 => some (acc ++ [v], r2)
      | _ => none

end

/-- `JSON.parse` over a character list: parse one value, then demand only
whitespace remains. -/
def jsonParseChars (cs : List Char) : Option Json :=
  match parseValue (cs.length + 1) cs with
  | some (j, rest) => if skipWs rest = [] then some j else none
  | none => none

/-! ## The suite (`JwsLinkedDataSignature`)

A suite instance carries `type`, `alg`, `contextUrl` and `requiredKeyType`
(strings, as the concrete subclasses configure them), an optional bound
`key` (only its `id` is observed by `matchProof`) and an optional
configured `verifier` capability.  The signer and verifier capabilities
(`sign(data) -> bytes`, `verify(data, signature) -> bool`) are external
collaborators and appear as function parameters; the verifier derived from
the verification method via `LDKeyClass.from(...).verifier()` when no
verifier is configured is likewise a parameter (`kmVerifier`). -/

/-- Bytes ready for signing: `_createJws` concatenates the UTF-8 bytes of
`encodedHeader + '.'` with the raw `verifyData` bytes. -/
def createJws (encodedHeader : List Char) (verifyData : List Nat) :
    List Nat :=
  utf8Bytes (encodedHeader ++ ['.']) ++ verifyData

/-- The JWS header `sign` builds, fresh per call:
`{alg: this.alg, b64: false, crit: ['b64']}`. -/
def signHeader (alg : String) : Json :=
  .obj [("alg", .str alg), ("b64", .bool false), ("crit", .arr [.str "b64"])]

/-- The `jws` string `sign` stores:
`encodedHeader + '..' + encodedSignature` (at the character level). -/
def signJwsChars (alg : String) (signer : List Nat → List Nat)
    (verifyData : List Nat) : List Char :=
  let encodedHeader := b64encode (utf8Bytes (jsonStr (signHeader alg)))
  let data := createJws encodedHeader verifyData
  let signature := signer data
  encodedHeader ++ '.' :: '.' :: b64encode signature

/-- `JwsLinkedDataSignature.sign` (its successful path: a signer
capability is configured — absent one the method throws before any
computation).  Mutates the caller's proof object: exactly the `jws` field
is written; the JS method returns that same object. -/
def sign (alg : String) (signer : List Nat → List Nat)
    (verifyData : List Nat) (proof : List (String × Json)) :
    List (String × Json) :=
  setField proof "jws" (.str (String.mk (signJwsChars alg signer verifyData)))

/-- The distinct error exits of `verifySignature`, in source order:
`formatError` is the `TypeError` for a missing/invalid `jws` property;
`headerParseError` the `'Could not parse JWS header'` wrapper (base64,
UTF-8 or JSON failure inside the `try`); `invalidHeaderError` the
`'Invalid JWS header.'` non-object guard; `headerParamsError` the
`'Invalid JWS header parameters for <type>.'` validation error;
`sigDecodeError` a failure of `decode(encodedSignature)` (a missing third
segment is JS `undefined` and the decoder throws on it). -/
inductive VErr where
  | formatError
  | headerParseError
  | invalidHeaderError
  | headerParamsError
  | sigDecodeError

/-- The source's header-parameter condition, verbatim in its (buggy)
association: the error is raised when
`!(alg ok && b64 ok && crit ok) && Object.keys(header).length === 3`. -/
def headerParamsReject (alg : String) (header : Json) : Bool :=
  (!(isStr (jsGet header "alg" |>.getD .null) alg &&
      (match jsGet header "b64" with
        | some (.bool false) => true
        | _ => false) &&
      (match jsGet header "crit" with
        | some (.arr [c]) => isStr c "b64"
        | _ => false))) &&
  keyCount header == 3

/-- `verifySignature` after the header segment has been decoded and
parsed: the non-object guard, the header-parameter validation, the
signature decode and the verifier call. -/
def verifyWithHeader (alg : String) (header : Json)
    (verifier : List Nat → List Nat → Bool)
    (encodedHeader : List Char) (encodedSignature : Option (List Char))
    (verifyData : List Nat) : Except VErr Bool :=
  if ¬ (jsTruthy header && jsTypeofObject header) then
    .error .invalidHeaderError
  else if headerParamsReject alg header then
    .error .headerParamsError
  else
    match encodedSignature with
    | none => .error .sigDecodeError
    | some segChars =>
      match b64decode segChars with
      | none => .error .sigDecodeError
      | some signature =>
        .ok (verifier (createJws encodedHeader verifyData) signature)

/-- `JwsLinkedDataSignature.verifySignature`.  `verifier?` is the
configured capability; `kmVerifier` stands for
`LDKeyClass.from(verificationMethod).verifier()` used when none is
configured.  `proofJws` is the runtime value of `proof.jws` (`none` = the
property is absent). -/
def verifySignature (alg : String)
    (verifier? : Option (List Nat → List Nat → Bool))
    (kmVerifier : List Nat → List Nat → Bool)
    (verifyData : List Nat) (proofJws : Option Json) : Except VErr Bool :=
  match proofJws with
  | some (.str s) =>
    if s.data = [] ∨ '.' ∉ s.data then .error .formatError
    else
      let segments := jsSplit '.' s.data
      let encodedHeader := segments.getD 0 []
      let encodedSignature := segments.get? 2
      match b64decode encodedHeader with
      | none => .error .headerParseError
      | some headerBytes =>
        match utf8DecodeBytes headerBytes with
        | none => .error .headerParseError
        | some headerChars =>
          match jsonParseChars headerChars with
          | none => .error .headerParseError
          | some header =>
            verifyWithHeader alg header (verifier?.getD kmVerifier)
              encodedHeader encodedSignature verifyData
  | _ => .error .formatError

/-- `_includesContext`: the document's `@context` strictly equals the
context url, or is an array containing it. -/
def includesContext (document : List (String × Json))
    (contextUrl : String) : Bool :=
  match jsLookup document "@context" with
  | some (.str s) => s = contextUrl
  | some (.arr l) => l.any (fun e => isStr e contextUrl)
  | _ => false

/-- Modelled from the external `jsonld` collaborator's documented
behavior, matching the spec's words: `jsonld.hasValue(vm, 'type', t)` is
true when the document's `type` equals `t` or is an array containing
`t`. -/
def hasTypeValue (vm : List (String × Json)) (t : String) : Bool :=
  match jsLookup vm "type" with
  | some (.arr l) => l.any (fun e => isStr e t)
  | some j => isStr j t
  | none => false

/-- The error exits of `assertVerificationMethod` (spec taxonomy names). -/
inductive AErr where
  | contextError
  | keyTypeError
  | revokedKeyError

/-- `JwsLinkedDataSignature.assertVerificationMethod`. -/
def assertVerificationMethod (contextUrl requiredKeyType : String)
    (vm : List (String × Json)) : Except AErr Unit :=
  if ¬ includesContext vm contextUrl then .error .contextError
  else if ¬ hasTypeValue vm requiredKeyType then .error .keyTypeError
  else
    match jsLookup vm "revoked" with
    | some _ => .error .revokedKeyError
    | none => .ok ()

/-- Errors observable from `matchProof`: whatever the delegated base
`matchProof` throws (left abstract as `delegated`), or the `TypeError` the
method itself raises reading `.id` of a `null` verification method
(`typeof null === 'object'` in JS). -/
inductive MErr where
  | delegated
  | typeError

/-- `JwsLinkedDataSignature.matchProof`.  `superMatch` is the outcome of
the delegated `super.matchProof(...)` call (an external collaborator);
`keyId` is `this.key && this.key.id`; `vmField` the runtime value of
`proof.verificationMethod` (`none` = absent). -/
def matchProof (contextUrl : String) (document : List (String × Json))
    (superMatch : Except MErr Bool) (keyId : Option String)
    (vmField : Option Json) : Except MErr Bool :=
  if ¬ includesContext document contextUrl then .ok false
  else
    match superMatch with
    | .error e => .error e
    | .ok false => .ok false
    | .ok true =>
      match keyId with
      | none => .ok true
      | some kid =>
        match vmField with
        | some .null => .error .typeError
        | some (.obj fields) =>
          .ok (match jsLookup fields "id" with
            | some (.str s) => s = kid
            | _ => false)
        | some (.arr _) => .ok false
        | some (.str s) => .ok (s = kid)
        | some _ => .ok false
        | none => .ok false

/-- Membership in the base64url alphabet (`[A-Za-z0-9_-]`). -/
def isB64UrlChar (c : Char) : Bool :=
  (charIdx alphabet c).isSome

/-- The spec's detached-JWS shape
`^[A-Za-z0-9_-]+\.\.[A-Za-z0-9_-]+$`: splitting on `.` yields exactly a
nonempty alphabet-only header segment, an empty payload segment and a
nonempty alphabet-only signature segment. -/
def matchesDetached (cs : List Char) : Bool :=
  match jsSplit '.' cs with
  | [a, [], c] =>
    !a.isEmpty && !c.isEmpty && a.all isB64UrlChar && c.all isB64UrlChar
  | _ => false

/-- A character `JSON.stringify` emits verbatim inside a string literal
and `JSON.parse` accepts verbatim: printable ASCII that is neither `"`
nor `\`. -/
def PlainChar (c : Char) : Prop :=
  0x20 ≤ c.toNat ∧ c.toNat < 128 ∧ c ≠ '"' ∧ c ≠ '\\'

instance (c : Char) : Decidable (PlainChar c) := by
  unfold PlainChar
  infer_instance

/-- `{"alg":"` — the serialized header up to the `alg` value. -/
def hdrPre : List Char := ['{', '"', 'a', 'l', 'g', '"', ':', '"']

/-- `,"b64":false,"crit":["b64"]}` — the serialized header after the
`alg` value's closing quote. -/
def hdrTail : List Char :=
  [',', '"', 'b', '6', '4', '"', ':', 'f', 'a', 'l', 's', 'e', ',', '"',
    'c', 'r', 'i', 't', '"', ':', '[', '"', 'b', '6', '4', '"', ']', '}']

/-! ## Helper lemmas: UTF-8 -/

theorem utf8Bytes_append (l1 l2 : List Char) :
    utf8Bytes (l1 ++ l2) = utf8Bytes l1 ++ utf8Bytes l2 := by
  induction l1 with
  | nil => rfl
  | cons c cs ih => simp [utf8Bytes, ih]

theorem utf8Char_ascii {c : Char} (h : c.toNat < 128) :
    utf8Char c = [c.toNat] := by
  simp [utf8Char, h]

theorem char_toNat_lt (c : Char) : c.toNat < 1114112 := by
  rcases c.valid with h | ⟨_, h2⟩
  · exact lt_trans h (by norm_num)
  · exact h2

theorem utf8Char_lt256 {c : Char} : ∀ b ∈ utf8Char c, b < 256 := by
  have hv := char_toNat_lt c
  unfold utf8Char
  split_ifs with h1 h2 h3 <;> intro b hb <;> simp at hb <;> omega

theorem utf8Bytes_lt256 {cs : List Char} : ∀ b ∈ utf8Bytes cs, b < 256 := by
  induction cs with
  | nil => simp [utf8Bytes]
  | cons c cs ih =>
    intro b hb
    simp only [utf8Bytes, List.mem_append] at hb
    exact hb.elim (utf8Char_lt256 b) (ih b)

theorem utf8Bytes_ascii {cs : List Char} (h : ∀ c ∈ cs, c.toNat < 128) :
    utf8Bytes cs = cs.map Char.toNat := by
  induction cs with
  | nil => rfl
  | cons c cs ih =>
    have hc : c.toNat < 128 := h c (by simp)
    simp [utf8Bytes, utf8Char_ascii hc, ih (fun d hd => h d (by simp [hd]))]

theorem utf8Dec_cons_ascii (f n : Nat) (h : n < 128) (rest : List Nat) :
    utf8Dec (f + 1) (n :: rest) =
      (utf8Dec f rest).map (fun cs => Char.ofNat n :: cs) := by
  rw [utf8Dec.eq_def]
  simp only []
  rw [if_pos (show n < 128 by omega)]

theorem utf8Dec_ascii :
    ∀ (cs : List Char) (f : Nat), (∀ c ∈ cs, c.toNat < 128) →
      cs.length ≤ f → utf8Dec f (utf8Bytes cs) = some cs
  | [], f, _, _ => by cases f <;> rfl
  | c :: cs, f, h, hf => by
    have hc : c.toNat < 128 := h c (by simp)
    cases f with
    | zero => simp at hf
    | succ f =>
      have hrest := utf8Dec_ascii cs f (fun d hd => h d (by simp [hd]))
        (by simp at hf; omega)
      simp only [utf8Bytes, utf8Char_ascii hc, List.cons_append,
        List.nil_append]
      rw [utf8Dec_cons_ascii f c.toNat hc, hrest]
      simp [Char.ofNat_toNat]

theorem utf8DecodeBytes_ascii {cs : List Char}
    (h : ∀ c ∈ cs, c.toNat < 128) :
    utf8DecodeBytes (utf8Bytes cs) = some cs := by
  unfold utf8DecodeBytes
  exact utf8Dec_ascii cs (utf8Bytes cs).length h
    (by rw [utf8Bytes_ascii h]; simp)

theorem utf8Bytes_ne_nil {c : Char} {cs : List Char} :
    utf8Bytes (c :: cs) ≠ [] := by
  have hv := char_toNat_lt c
  simp only [utf8Bytes]
  unfold utf8Char
  split_ifs <;> simp

/-! ## Helper lemmas: base64url -/

theorem b64Vals_lt64 :
    ∀ bs : List Nat, (∀ b ∈ bs, b < 256) → ∀ v ∈ b64Vals bs, v < 64
  | [], _ => by simp [b64Vals]
  | [a], h => by
    have ha : a < 256 := h a (by simp)
    simp only [b64Vals, List.mem_cons, List.not_mem_nil, or_false]
    rintro v (rfl | rfl) <;> omega
  | [a, b], h => by
    have ha : a < 256 := h a (by simp)
    have hb : b < 256 := h b (by simp)
    simp only [b64Vals, List.mem_cons, List.not_mem_nil, or_false]
    rintro v (rfl | rfl | rfl) <;> omega
  | a :: b :: c :: rest, h => by
    have ha : a < 256 := h a (by simp)
    have hb : b < 256 := h b (by simp)
    have hc : c < 256 := h c (by simp)
    have ih := b64Vals_lt64 rest (fun x hx => h x (by simp [hx]))
    simp only [b64Vals, List.mem_cons]
    rintro v (rfl | rfl | rfl | rfl | hv)
    · omega
    · omega
    · omega
    · omega
    · exact ih v hv

theorem b64Unvals_b64Vals :
    ∀ bs : List Nat, (∀ b ∈ bs, b < 256) →
      b64Unvals (b64Vals bs) = some bs
  | [], _ => rfl
  | [a], h => by
    have ha : a < 256 := h a (by simp)
    simp only [b64Vals, b64Unvals]
    congr 2
    omega
  | [a, b], h => by
    have ha : a < 256 := h a (by simp)
    have hb : b < 256 := h b (by simp)
    simp only [b64Vals, b64Unvals]
    have e1 : a / 4 * 4 + (a % 4 * 16 + b / 16) / 16 = a := by omega
    have e2 : (a % 4 * 16 + b / 16) % 16 * 16 + b % 16 * 4 / 4 = b := by
      omega
    rw [e1, e2]
  | a :: b :: c :: rest, h => by
    have ha : a < 256 := h a (by simp)
    have hb : b < 256 := h b (by simp)
    have hc : c < 256 := h c (by simp)
    have ih := b64Unvals_b64Vals rest (fun x hx => h x (by simp [hx]))
    simp only [b64Vals, b64Unvals, ih, Option.map_some]
    have e1 : a / 4 * 4 + (a % 4 * 16 + b / 16) / 16 = a := by omega
    have e2 : (a % 4 * 16 + b / 16) % 16 * 16 + (b % 16 * 4 + c / 64) / 4
        = b := by omega
    have e3 : (b % 16 * 4 + c / 64) % 4 * 64 + c % 64 = c := by omega
    rw [e1, e2, e3]
    rfl

theorem charIdx_alphabet_getD :
    ∀ v < 64, charIdx alphabet (alphabet.getD v 'A') = some v := by decide

theorem alphabet_getD_ne_dot : ∀ v < 64, alphabet.getD v 'A' ≠ '.' := by
  decide

theorem charVals_map_getD :
    ∀ vs : List Nat, (∀ v ∈ vs, v < 64) →
      charVals (vs.map (fun v => alphabet.getD v 'A')) = some vs
  | [], _ => rfl
  | v :: vs, h => by
    have hv : v < 64 := h v (by simp)
    have ih := charVals_map_getD vs (fun x hx => h x (by simp [hx]))
    simp only [List.map_cons, charVals, charIdx_alphabet_getD v hv, ih]
    rfl

theorem charVals_b64encode {bs : List Nat} (h : ∀ b ∈ bs, b < 256) :
    charVals (b64encode bs) = some (b64Vals bs) :=
  charVals_map_getD (b64Vals bs) (b64Vals_lt64 bs h)

theorem b64decode_b64encode {bs : List Nat} (h : ∀ b ∈ bs, b < 256) :
    b64decode (b64encode bs) = some bs := by
  unfold b64decode
  rw [charVals_b64encode h]
  exact b64Unvals_b64Vals bs h

theorem b64encode_no_dot {bs : List Nat} (h : ∀ b ∈ bs, b < 256) :
    '.' ∉ b64encode bs := by
  have hlt := b64Vals_lt64 bs h
  unfold b64encode
  intro hmem
  rcases List.mem_map.mp hmem with ⟨v, hv, hev⟩
  exact alphabet_getD_ne_dot v (hlt v hv) hev

theorem b64encode_ne_nil {b : Nat} {bs : List Nat} :
    b64encode (b :: bs) ≠ [] := by
  cases bs with
  | nil => simp [b64encode, b64Vals]
  | cons b2 rest =>
    cases rest with
    | nil => simp [b64encode, b64Vals]
    | cons b3 rest2 => simp [b64encode, b64Vals]

/-! ## Helper lemmas: `split('.')` -/

theorem jsSplit_no_sep {sep : Char} :
    ∀ {l : List Char}, sep ∉ l → jsSplit sep l = [l]
  | [], _ => rfl
  | c :: cs, h => by
    have hc : c ≠ sep := fun hc => h (hc ▸ List.mem_cons_self c cs)
    have ih := jsSplit_no_sep (l := cs) (fun hm => h (List.mem_cons_of_mem c hm))
    simp [jsSplit, hc, ih]

theorem jsSplit_two {sep : Char} {b c : List Char} (hb : sep ∉ b)
    (hc : sep ∉ c) : jsSplit sep (b ++ sep :: c) = [b, c] := by
  induction b with
  | nil => simp [jsSplit, jsSplit_no_sep hc]
  | cons x xs ih =>
    have hx : x ≠ sep := fun hx => hb (hx ▸ List.mem_cons_self x xs)
    have ih' := ih (fun hm => hb (List.mem_cons_of_mem x hm))
    simp [jsSplit, hx, ih']

theorem jsSplit_three {sep : Char} {a b c : List Char} (ha : sep ∉ a)
    (hb : sep ∉ b) (hc : sep ∉ c) :
    jsSplit sep (a ++ sep :: (b ++ sep :: c)) = [a, b, c] := by
  induction a with
  | nil => simp [jsSplit, jsSplit_two hb hc]
  | cons x xs ih =>
    have hx : x ≠ sep := fun hx => ha (hx ▸ List.mem_cons_self x xs)
    have ih' := ih (fun hm => ha (List.mem_cons_of_mem x hm))
    simp [jsSplit, hx, ih']

/-! ## Helper lemmas: `setField` / `jsLookup` -/

theorem jsLookup_setField_same (l : List (String × Json)) (k : String)
    (v : Json) : jsLookup (setField l k v) k = some v := by
  induction l with
  | nil => simp [setField, jsLookup]
  | cons p rest ih =>
    obtain ⟨k0, v0⟩ := p
    by_cases h : k0 = k
    · simp [setField, h, jsLookup]
    · simp [setField, h, jsLookup, ih]

theorem jsLookup_setField_ne (l : List (String × Json)) (k k' : String)
    (v : Json) (h : k' ≠ k) :
    jsLookup (setField l k v) k' = jsLookup l k' := by
  have hk : ¬ k = k' := fun he => h he.symm
  induction l with
  | nil => simp [setField, jsLookup, hk]
  | cons p rest ih =>
    obtain ⟨k0, v0⟩ := p
    by_cases hp : k0 = k
    · subst hp
      simp [setField, jsLookup, hk]
    · simp [setField, hp, jsLookup, ih]

/-! ## Helper lemmas: the signing header's serialization and parse.

The suite's `alg` values (`"EdDSA"`, `"PS256"`, ...) are printable ASCII
with no character `JSON.stringify` escapes; the round-trip lemmas assume
exactly that of `alg`. -/

theorem escapeChar_plain {c : Char} (h : PlainChar c) :
    escapeChar c = [c] := by
  obtain ⟨h1, _, h3, h4⟩ := h
  unfold escapeChar
  rw [if_neg h3, if_neg h4]
  rw [if_neg (fun he : c = '\x08' => by subst he; simp at h1),
    if_neg (fun he : c = '\x0C' => by subst he; simp at h1),
    if_neg (fun he : c = '\n' => by subst he; simp at h1),
    if_neg (fun he : c = '\r' => by subst he; simp at h1),
    if_neg (fun he : c = '\t' => by subst he; simp at h1),
    if_neg (show ¬ c.toNat < 0x20 by omega)]

theorem escapeChars_plain {s : List Char} (h : ∀ c ∈ s, PlainChar c) :
    escapeChars s = s := by
  induction s with
  | nil => rfl
  | cons c cs ih =>
    simp [escapeChars, escapeChar_plain (h c (by simp)),
      ih (fun d hd => h d (by simp [hd]))]

theorem parseStrBody_step {c : Char} (f : Nat) (rest : List Char)
    (h1 : c ≠ '"') (h2 : c ≠ '\\') (h3 : ¬ c.toNat < 0x20) :
    parseStrBody (f + 1) (c :: rest) =
      (parseStrBody f rest).map (fun (s, t) => (c :: s, t)) := by
  rw [parseStrBody.eq_def]
  simp [h1, h2, h3]

theorem parseStrBody_plain :
    ∀ (s : List Char) (f : Nat) (r : List Char),
      (∀ c ∈ s, PlainChar c) → s.length < f →
      parseStrBody f (s ++ '"' :: r) = some (s, r)
  | [], f, r, _, hf => by
    cases f with
    | zero => simp at hf
    | succ f => rfl
  | c :: s, f, r, h, hf => by
    obtain ⟨_, _, hq, hb⟩ := h c (by simp)
    cases f with
    | zero => simp at hf
    | succ f =>
      rw [List.cons_append,
        parseStrBody_step f (s ++ '"' :: r) hq hb (by omega),
        parseStrBody_plain s f r (fun d hd => h d (by simp [hd]))
          (by simp at hf; omega)]
      rfl

theorem parseString_plain {s : List Char} (r : List Char)
    (h : ∀ c ∈ s, PlainChar c) :
    parseString (s ++ '"' :: r) = some (s, r) := by
  unfold parseString
  exact parseStrBody_plain s _ r h (by simp)

theorem jsonStr_signHeader {alg : String}
    (h : ∀ c ∈ alg.data, PlainChar c) :
    jsonStr (signHeader alg) =
      hdrPre ++ (alg.data ++ '"' :: hdrTail) := by
  show ('{' :: (strLit "alg" ++ ':' :: strLit alg ++ ',' ::
      (strLit "b64" ++ ':' :: jsonStr (.bool false) ++ ',' ::
        (strLit "crit" ++ ':' :: jsonStr (.arr [.str "b64"])))) ++ ['}'])
    = hdrPre ++ (alg.data ++ '"' :: hdrTail)
  rw [show strLit alg = '"' :: escapeChars alg.data ++ ['"'] from rfl,
    escapeChars_plain h]
  simp [strLit, hdrPre, hdrTail, jsonStr, jsonStrElems, escapeChars,
    escapeChar]

theorem hdrChars_ascii {alg : String} (h : ∀ c ∈ alg.data, PlainChar c) :
    ∀ c ∈ hdrPre ++ (alg.data ++ '"' :: hdrTail), c.toNat < 128 := by
  intro c hc
  simp only [List.mem_append, List.mem_cons] at hc
  rcases hc with hc | hc | rfl | hc
  · revert hc
    revert c
    decide
  · exact (h c hc).2.1
  · decide
  · revert hc
    revert c
    decide

theorem parseValue_hdr {alg : String} (h : ∀ c ∈ alg.data, PlainChar c)
    (f : Nat) :
    parseValue (f + 7) (hdrPre ++ (alg.data ++ '"' :: hdrTail)) =
      some (signHeader alg, []) := by
  have h0 : parseValue (f + 7) (hdrPre ++ (alg.data ++ '"' :: hdrTail)) =
      (parseMembers (f + 6)
        ('"' :: 'a' :: 'l' :: 'g' :: '"' :: ':' :: '"' ::
          (alg.data ++ '"' :: hdrTail)) []).map
        (fun (m, r) => (Json.obj m, r)) := rfl
  have h1 : parseMembers (f + 6)
      ('"' :: 'a' :: 'l' :: 'g' :: '"' :: ':' :: '"' ::
        (alg.data ++ '"' :: hdrTail)) [] =
      match parseValue (f + 5) ('"' :: (alg.data ++ '"' :: hdrTail)) with
      | none => none
      | some (v, r3) =>
        match skipWs r3 with
        | ',' :: r4 => parseMembers (f + 5) r4 (setField [] "alg" v)
        | '}' :: r4 => some (setField [] "alg" v, r4)
        | _ => none := rfl
  have h2 : parseValue (f + 5) ('"' :: (alg.data ++ '"' :: hdrTail)) =
      (parseString (alg.data ++ '"' :: hdrTail)).map
        (fun (s, r) => (Json.str (String.mk s), r)) := rfl
  rw [h0, h1, h2, parseString_plain hdrTail h]
  rfl

/-- Symbolic run of `verifySignature` on a three-segment `jws` up to and
including the header parse: what remains is `verifyWithHeader` on the
parsed header, with the received header segment passed on verbatim. -/
theorem verifySignature_parse (alg : String)
    (v? : Option (List Nat → List Nat → Bool))
    (kv : List Nat → List Nat → Bool) (vd : List Nat) (hb : List Nat)
    (hseg pseg sseg hcs : List Char) (header : Json)
    (hnd1 : '.' ∉ hseg) (hnd2 : '.' ∉ pseg) (hnd3 : '.' ∉ sseg)
    (hdec : b64decode hseg = some hb)
    (hutf : utf8DecodeBytes hb = some hcs)
    (hjson : jsonParseChars hcs = some header) :
    verifySignature alg v? kv vd
        (some (.str (String.mk (hseg ++ '.' :: (pseg ++ '.' :: sseg))))) =
      verifyWithHeader alg header (v?.getD kv) hseg (some sseg) vd := by
  unfold verifySignature
  dsimp only
  rw [if_neg (show ¬ (hseg ++ '.' :: (pseg ++ '.' :: sseg) = [] ∨
      '.' ∉ hseg ++ '.' :: (pseg ++ '.' :: sseg)) by
    rintro (he | hm)
    · cases hseg <;> simp at he
    · exact hm (by simp))]
  rw [jsSplit_three hnd1 hnd2 hnd3]
  rw [show ([hseg, pseg, sseg].getD 0 []) = hseg from rfl,
    show ([hseg, pseg, sseg].get? 2) = some sseg from rfl]
  simp only [hdec, hutf, hjson]

/-- Symbolic run of `verifySignature` on a well-formed three-segment
`jws` whose header decodes, parses and passes the (source-literal) header
checks: the verifier's boolean comes back unchanged, applied to the
signing input recomputed from the received header segment verbatim. -/
theorem verifySignature_run (alg : String)
    (v? : Option (List Nat → List Nat → Bool))
    (kv : List Nat → List Nat → Bool) (vd sig hb : List Nat)
    (hseg pseg sseg hcs : List Char) (header : Json)
    (hnd1 : '.' ∉ hseg) (hnd2 : '.' ∉ pseg) (hnd3 : '.' ∉ sseg)
    (hdec : b64decode hseg = some hb)
    (hutf : utf8DecodeBytes hb = some hcs)
    (hjson : jsonParseChars hcs = some header)
    (hobj : (jsTruthy header && jsTypeofObject header) = true)
    (hparams : headerParamsReject alg header = false)
    (hsig : b64decode sseg = some sig) :
    verifySignature alg v? kv vd
        (some (.str (String.mk (hseg ++ '.' :: (pseg ++ '.' :: sseg))))) =
      .ok ((v?.getD kv) (createJws hseg vd) sig) := by
  rw [verifySignature_parse alg v? kv vd hb hseg pseg sseg hcs header
    hnd1 hnd2 hnd3 hdec hutf hjson]
  unfold verifyWithHeader
  rw [if_neg (show ¬ ¬ (jsTruthy header && jsTypeofObject header) = true by
      rw [hobj]; simp),
    if_neg (show ¬ headerParamsReject alg header = true by
      rw [hparams]; simp)]
  simp only [hsig]

theorem jsonParseChars_hdr {alg : String}
    (h : ∀ c ∈ alg.data, PlainChar c) :
    jsonParseChars (hdrPre ++ (alg.data ++ '"' :: hdrTail)) =
      some (signHeader alg) := by
  unfold jsonParseChars
  have hlen : (hdrPre ++ (alg.data ++ '"' :: hdrTail)).length + 1 =
      (alg.data.length + 31) + 7 := by
    simp [hdrPre, hdrTail]
  rw [hlen, parseValue_hdr h]
  rfl

theorem b64encode_ne_nil' {bs : List Nat} (h : bs ≠ []) :
    b64encode bs ≠ [] := by
  cases bs with
  | nil => exact absurd rfl h
  | cons b rest => exact b64encode_ne_nil

theorem b64encode_all_alpha {bs : List Nat} (h : ∀ b ∈ bs, b < 256) :
    ∀ c ∈ b64encode bs, isB64UrlChar c = true := by
  have hlt := b64Vals_lt64 bs h
  intro c hc
  rcases List.mem_map.mp hc with ⟨v, hv, hev⟩
  subst hev
  exact (by decide :
    ∀ v < 64, isB64UrlChar (alphabet.getD v 'A') = true) v (hlt v hv)

theorem jsonStr_signHeader_ascii {alg : String}
    (h : ∀ c ∈ alg.data, PlainChar c) :
    ∀ c ∈ jsonStr (signHeader alg), c.toNat < 128 := by
  rw [jsonStr_signHeader h]
  exact hdrChars_ascii h

theorem sign_jws_lookup (alg : String) (signer : List Nat → List Nat)
    (vd : List Nat) (proof : List (String × Json)) :
    jsLookup (sign alg signer vd proof) "jws" =
      some (.str (String.mk (signJwsChars alg signer vd))) :=
  jsLookup_setField_same proof "jws" _

/-! ## The claims -/

/-- C3: round-trip.  For every byte payload `verifyData`, every caller
proof object, and every signer/verifier pair derived from the same key —
formalized as: the verifier accepts whatever the signer produced over a
given input — verifying the proof that `sign` populated returns `true`.
`alg` ranges over any suite algorithm label made of characters
`JSON.stringify` emits verbatim (all real labels: `"EdDSA"`, `"PS256"`,
...); the signer returns bytes (`< 256`), as a `Uint8Array` holds. -/
theorem c3_sign_verify_roundtrip (alg : String)
    (signer : List Nat → List Nat)
    (verifier kv : List Nat → List Nat → Bool) (vd : List Nat)
    (proof : List (String × Json))
    (hAlg : ∀ c ∈ alg.data, PlainChar c)
    (hsigner : ∀ d, ∀ b ∈ signer d, b < 256)
    (haccept : ∀ d, verifier d (signer d) = true) :
    verifySignature alg (some verifier) kv vd
        (jsLookup (sign alg signer vd proof) "jws") = .ok true := by
  rw [sign_jws_lookup]
  have hhb := @utf8Bytes_lt256 (jsonStr (signHeader alg))
  have hrun := verifySignature_run alg (some verifier) kv vd
    (signer (createJws (b64encode (utf8Bytes (jsonStr (signHeader alg)))) vd))
    (utf8Bytes (jsonStr (signHeader alg)))
    (b64encode (utf8Bytes (jsonStr (signHeader alg))))
    []
    (b64encode (signer
      (createJws (b64encode (utf8Bytes (jsonStr (signHeader alg)))) vd)))
    (jsonStr (signHeader alg)) (signHeader alg)
    (b64encode_no_dot hhb) (by simp)
    (b64encode_no_dot (hsigner _))
    (b64decode_b64encode hhb)
    (utf8DecodeBytes_ascii (jsonStr_signHeader_ascii hAlg))
    (by rw [jsonStr_signHeader hAlg]; exact jsonParseChars_hdr hAlg)
    rfl
    (by simp [headerParamsReject, signHeader, jsGet, jsLookup, isStr])
    (b64decode_b64encode (hsigner _))
  rw [show signJwsChars alg signer vd =
      b64encode (utf8Bytes (jsonStr (signHeader alg))) ++ '.' ::
        ([] ++ '.' :: b64encode (signer
          (createJws (b64encode (utf8Bytes (jsonStr (signHeader alg))))
            vd))) from rfl]
  rw [hrun]
  simp [haccept]

/-- C3 witness: the round-trip at a concrete suite (`alg = "EdDSA"`), a
concrete payload, a caller proof object with an existing field, and a
concrete signer/verifier pair agreeing in the round-trip sense. -/
theorem c3_sign_verify_roundtrip_witness :
    verifySignature "EdDSA"
        (some (fun d s => decide (s = [d.length % 256])))
        (fun _ _ => false) [104, 105]
        (jsLookup
          (sign "EdDSA" (fun d => [d.length % 256]) [104, 105]
            [("type", .str "Ed25519Signature2018")]) "jws") =
      .ok true :=
  c3_sign_verify_roundtrip "EdDSA" (fun d => [d.length % 256])
    (fun d s => decide (s = [d.length % 256])) (fun _ _ => false)
    [104, 105] [("type", .str "Ed25519Signature2018")]
    (by decide)
    (fun d b hb => by simp at hb; omega)
    (fun d => by simp)

set_option maxRecDepth 10000 in
/-- C1: the suite's header validation does not reject a header carrying a
fourth key.  The spec (and the source's own intent, per its comment
"confirm header matches all expectations") demands rejection unless the
three fields are exactly right AND the header has exactly 3 own keys; the
source's condition `!(fields ok) && keys == 3` instead SKIPS the error
whenever the key count differs from 3.  Here a jws whose header is
`alg: "EdDSA", b64: false, crit: ["b64"], extra: 1` — four own keys —
sails past validation and reaches the signature check, which this run's
verifier answers with `true`: no `HeaderValidationError` is ever thrown.
The first conjunct runs the full `verifySignature`; the second shows the
decoded header segment indeed parses to that four-key object; the third
evaluates the source's literal rejection condition on it to `false`. -/
theorem c1_fourth_key_header_not_rejected :
    verifySignature "EdDSA" (some (fun _ _ => true)) (fun _ _ => false) []
        (some (.str
          ("eyJhbGciOiJFZERTQSIsImI2NCI6ZmFsc2UsImNyaXQiOlsiYjY0Il0sImV4dHJhIjoxfQ..AQID"))) =
      .ok true ∧
    ((b64decode
        ("eyJhbGciOiJFZERTQSIsImI2NCI6ZmFsc2UsImNyaXQiOlsiYjY0Il0sImV4dHJhIjoxfQ").data).bind
      (fun bs => utf8DecodeBytes bs)).bind (fun cs => jsonParseChars cs) =
      some (.obj [("alg", .str "EdDSA"), ("b64", .bool false),
        ("crit", .arr [.str "b64"]), ("extra", .num "1")]) ∧
    headerParamsReject "EdDSA"
        (.obj [("alg", .str "EdDSA"), ("b64", .bool false),
          ("crit", .arr [.str "b64"]), ("extra", .num "1")]) = false :=
  ⟨rfl, rfl, rfl⟩

/-- C2 counterexample: a `jws` of two segments — `"YQ.YQ"` splits on `.`
into fewer than 3 segments — is NOT rejected with the format `TypeError`:
the gate only demands a nonempty string containing a `.`, so the run
proceeds to decode the header segment (`"YQ"`, the bytes of `"a"`) and
fails later, inside `JSON.parse`, with the distinct
`Could not parse JWS header` error. -/
theorem c2_two_segment_jws_past_format_gate :
    verifySignature "EdDSA" (some (fun _ _ => true)) (fun _ _ => false) []
        (some (.str "YQ.YQ")) = .error .headerParseError := rfl

/-- C2 as amended: `verifySignature` throws the format `TypeError` exactly
when `proof.jws` is absent, not a string, the empty string, or a string
with no `.` at all; a string containing one `.` (two segments) passes this
gate even though it lacks a third segment. -/
theorem c2_format_error_iff_missing_dot (alg : String)
    (v? : Option (List Nat → List Nat → Bool))
    (kv : List Nat → List Nat → Bool) (vd : List Nat) (j : Option Json) :
    verifySignature alg v? kv vd j = .error .formatError ↔
      ¬ ∃ s : String, j = some (.str s) ∧ s.data ≠ [] ∧ '.' ∈ s.data := by
  cases j with
  | none => simp [verifySignature]
  | some jj =>
    cases jj with
    | str s =>
      unfold verifySignature
      dsimp only
      by_cases hgate : s.data = [] ∨ '.' ∉ s.data
      · rw [if_pos hgate]
        apply iff_of_true rfl
        rintro ⟨s', hs', hne, hmem⟩
        obtain rfl : s = s' := by injection hs' with h; injection h
        exact hgate.elim hne (fun hn => hn hmem)
      · rw [if_neg hgate]
        push_neg at hgate
        apply iff_of_false
        · cases hb : b64decode ((jsSplit '.' s.data).getD 0 []) with
          | none => simp
          | some bs =>
            cases hu : utf8DecodeBytes bs with
            | none => simp [hu]
            | some cs =>
              simp only [hu]
              cases hj : jsonParseChars cs with
              | none => simp [hj]
              | some hd =>
                simp only [hj]
                unfold verifyWithHeader
                split_ifs <;> try simp
                cases h2 : (jsSplit '.' s.data)[2]? with
                | none => simp
                | some sc => cases hsd : b64decode sc <;> simp [hsd]
        · intro hno
          exact hno ⟨s, rfl, hgate.1, hgate.2⟩
    | null => simp [verifySignature]
    | bool b => simp [verifySignature]
    | num r => simp [verifySignature]
    | arr l => simp [verifySignature]
    | obj f => simp [verifySignature]

/-- C4: the signing input.  First conjunct, for every encoded-header
character sequence and every byte payload: `_createJws` produces exactly
the UTF-8 bytes of the header followed by one `.` byte (0x2E) followed by
the raw payload bytes; its length is the header's byte length plus 1 plus
the payload length, which for an ASCII header (every base64url segment is
ASCII) equals the header's character count plus 1 plus the payload
length.  Second conjunct: on verify the input is recomputed from the
received encoded header segment verbatim — a verifier that accepts
exactly the input `createJws hseg vd` (never a re-serialized header)
answers `true`. -/
theorem c4_signing_input_bytes (alg : String)
    (kv : List Nat → List Nat → Bool) (vd sig hb : List Nat)
    (hseg pseg sseg hcs : List Char) (header : Json)
    (hnd1 : '.' ∉ hseg) (hnd2 : '.' ∉ pseg) (hnd3 : '.' ∉ sseg)
    (hdec : b64decode hseg = some hb)
    (hutf : utf8DecodeBytes hb = some hcs)
    (hjson : jsonParseChars hcs = some header)
    (hobj : (jsTruthy header && jsTypeofObject header) = true)
    (hparams : headerParamsReject alg header = false)
    (hsig : b64decode sseg = some sig) :
    (∀ (eh : List Char) (d : List Nat),
        createJws eh d = utf8Bytes eh ++ 46 :: d ∧
        (createJws eh d).length = (utf8Bytes eh).length + 1 + d.length ∧
        ((∀ c ∈ eh, c.toNat < 128) →
          (createJws eh d).length = eh.length + 1 + d.length)) ∧
    verifySignature alg
        (some (fun dt _ => decide (dt = createJws hseg vd))) kv vd
        (some (.str (String.mk (hseg ++ '.' :: (pseg ++ '.' :: sseg))))) =
      .ok true := by
  have hbytes : ∀ (eh : List Char) (d : List Nat),
      createJws eh d = utf8Bytes eh ++ 46 :: d := by
    intro eh d
    show utf8Bytes (eh ++ ['.']) ++ d = _
    rw [utf8Bytes_append]
    simp [utf8Bytes, utf8Char]
  constructor
  · intro eh d
    refine ⟨hbytes eh d, ?_, ?_⟩
    · rw [hbytes eh d]
      simp
      omega
    · intro hascii
      rw [hbytes eh d]
      simp [utf8Bytes_ascii hascii]
      omega
  · rw [verifySignature_run alg _ kv vd sig hb hseg pseg sseg hcs header
      hnd1 hnd2 hnd3 hdec hutf hjson hobj hparams hsig]
    simp

/-- C6: for a structurally valid input — well-formed three-segment `jws`,
decodable/parsable header passing the header checks, decodable signature
segment — `verifySignature` returns the configured verifier's boolean
verdict unchanged as a plain `Except.ok`: a cryptographic mismatch is the
value `false`, not one of the thrown error kinds. -/
theorem c6_verifier_result_returned_unchanged (alg : String)
    (v kv : List Nat → List Nat → Bool) (vd sig hb : List Nat)
    (hseg pseg sseg hcs : List Char) (header : Json) (b : Bool)
    (hnd1 : '.' ∉ hseg) (hnd2 : '.' ∉ pseg) (hnd3 : '.' ∉ sseg)
    (hdec : b64decode hseg = some hb)
    (hutf : utf8DecodeBytes hb = some hcs)
    (hjson : jsonParseChars hcs = some header)
    (hobj : (jsTruthy header && jsTypeofObject header) = true)
    (hparams : headerParamsReject alg header = false)
    (hsig : b64decode sseg = some sig)
    (hv : v (createJws hseg vd) sig = b) :
    verifySignature alg (some v) kv vd
        (some (.str (String.mk (hseg ++ '.' :: (pseg ++ '.' :: sseg))))) =
      .ok b := by
  rw [verifySignature_run alg (some v) kv vd sig hb hseg pseg sseg hcs
    header hnd1 hnd2 hnd3 hdec hutf hjson hobj hparams hsig]
  simp [hv]

set_option maxRecDepth 10000 in
/-- C4 witness: the concrete `EdDSA` header segment with payload
`[104]`, signature bytes `[1, 2, 3]` (`"AQID"`). -/
theorem c4_signing_input_bytes_witness :
    (∀ (eh : List Char) (d : List Nat),
        createJws eh d = utf8Bytes eh ++ 46 :: d ∧
        (createJws eh d).length = (utf8Bytes eh).length + 1 + d.length ∧
        ((∀ c ∈ eh, c.toNat < 128) →
          (createJws eh d).length = eh.length + 1 + d.length)) ∧
    verifySignature "EdDSA"
        (some (fun dt _ => decide (dt = createJws
          ("eyJhbGciOiJFZERTQSIsImI2NCI6ZmFsc2UsImNyaXQiOlsiYjY0Il19").data
          [104]))) (fun _ _ => true) [104]
        (some (.str (String.mk
          (("eyJhbGciOiJFZERTQSIsImI2NCI6ZmFsc2UsImNyaXQiOlsiYjY0Il19").data ++
            '.' :: ([] ++ '.' :: ("AQID").data))))) = .ok true :=
  c4_signing_input_bytes "EdDSA" (fun _ _ => true) [104] [1, 2, 3]
    (utf8Bytes (jsonStr (signHeader "EdDSA")))
    (("eyJhbGciOiJFZERTQSIsImI2NCI6ZmFsc2UsImNyaXQiOlsiYjY0Il19").data)
    [] (("AQID").data) (jsonStr (signHeader "EdDSA")) (signHeader "EdDSA")
    (by decide) (by decide) (by decide) rfl rfl rfl rfl rfl rfl

set_option maxRecDepth 10000 in
/-- C6 witness: a structurally valid `jws` whose signature the configured
verifier rejects — the outcome is the plain value `Except.ok false`. -/
theorem c6_verifier_result_returned_unchanged_witness :
    verifySignature "EdDSA" (some (fun _ _ => false)) (fun _ _ => true)
        [104]
        (some (.str (String.mk
          (("eyJhbGciOiJFZERTQSIsImI2NCI6ZmFsc2UsImNyaXQiOlsiYjY0Il19").data ++
            '.' :: ([] ++ '.' :: ("AQID").data))))) = .ok false :=
  c6_verifier_result_returned_unchanged "EdDSA" (fun _ _ => false)
    (fun _ _ => true) [104] [1, 2, 3]
    (utf8Bytes (jsonStr (signHeader "EdDSA")))
    (("eyJhbGciOiJFZERTQSIsImI2NCI6ZmFsc2UsImNyaXQiOlsiYjY0Il19").data)
    [] (("AQID").data) (jsonStr (signHeader "EdDSA")) (signHeader "EdDSA")
    false (by decide) (by decide) (by decide) rfl rfl rfl rfl rfl rfl rfl

/-- C5 counterexample: a sign call whose signer returns zero bytes.
`base64url([])` is the empty string, so the produced `jws` ends in `..`
and does NOT match `^[A-Za-z0-9_-]+\.\.[A-Za-z0-9_-]+$` (the signature
segment is empty, where the pattern demands one or more characters). -/
theorem c5_empty_signature_breaks_pattern :
    jsLookup (sign "EdDSA" (fun _ => []) [] []) "jws" =
      some (.str "eyJhbGciOiJFZERTQSIsImI2NCI6ZmFsc2UsImNyaXQiOlsiYjY0Il19..") ∧
    matchesDetached
        ("eyJhbGciOiJFZERTQSIsImI2NCI6ZmFsc2UsImNyaXQiOlsiYjY0Il19..").data =
      false :=
  ⟨rfl, rfl⟩

/-- C5 as amended: `sign` writes into `proof.jws` exactly the string
`base64url(UTF8(JSON.stringify(header))) ++ ".." ++ base64url(signature)`
where the header is built fresh from the suite's `alg` alone —
`signHeader alg` has exactly the three fields
`alg`, `b64: false`, `crit: ["b64"]`, and nothing of the caller's proof
flows into it; and the result matches the detached-JWS pattern (empty
middle segment, nonempty base64url header and signature segments)
whenever the signer returned at least one byte. -/
theorem c5_sign_jws_structure (alg : String)
    (signer : List Nat → List Nat) (vd : List Nat)
    (proof : List (String × Json))
    (hsigner : ∀ b ∈ signer
      (createJws (b64encode (utf8Bytes (jsonStr (signHeader alg)))) vd),
      b < 256) :
    jsLookup (sign alg signer vd proof) "jws" =
      some (.str (String.mk
        (b64encode (utf8Bytes (jsonStr (signHeader alg))) ++ '.' :: '.' ::
          b64encode (signer
            (createJws (b64encode (utf8Bytes (jsonStr (signHeader alg))))
              vd))))) ∧
    (signer (createJws (b64encode (utf8Bytes (jsonStr (signHeader alg))))
        vd) ≠ [] →
      matchesDetached (signJwsChars alg signer vd) = true) := by
  constructor
  · exact sign_jws_lookup alg signer vd proof
  · intro hne
    have hH : b64encode (utf8Bytes (jsonStr (signHeader alg))) ≠ [] :=
      b64encode_ne_nil'
        (show utf8Bytes ('{' :: _) ≠ [] from utf8Bytes_ne_nil)
    have hS : b64encode (signer
        (createJws (b64encode (utf8Bytes (jsonStr (signHeader alg)))) vd))
        ≠ [] := b64encode_ne_nil' hne
    rw [show signJwsChars alg signer vd =
      b64encode (utf8Bytes (jsonStr (signHeader alg))) ++ '.' ::
        ([] ++ '.' :: b64encode (signer
          (createJws (b64encode (utf8Bytes (jsonStr (signHeader alg))))
            vd))) from rfl]
    unfold matchesDetached
    rw [jsSplit_three (b64encode_no_dot utf8Bytes_lt256) (by simp)
      (b64encode_no_dot hsigner)]
    simp [List.isEmpty_iff, hH, hS, List.all_eq_true]
    exact ⟨b64encode_all_alpha utf8Bytes_lt256, b64encode_all_alpha hsigner⟩

/-- C5 witness: a concrete sign call with a 3-byte signature: the `jws`
has the stated shape and matches the detached pattern. -/
theorem c5_sign_jws_structure_witness :
    jsLookup (sign "EdDSA" (fun _ => [1, 2, 3]) [104] []) "jws" =
      some (.str (String.mk
        (b64encode (utf8Bytes (jsonStr (signHeader "EdDSA"))) ++ '.' :: '.' ::
          b64encode ((fun _ => [1, 2, 3])
            (createJws (b64encode (utf8Bytes (jsonStr (signHeader "EdDSA"))))
              [104]))))) ∧
    ((fun _ => [1, 2, 3])
        (createJws (b64encode (utf8Bytes (jsonStr (signHeader "EdDSA"))))
          [104]) ≠ [] →
      matchesDetached (signJwsChars "EdDSA" (fun _ => [1, 2, 3]) [104]) =
        true) :=
  c5_sign_jws_structure "EdDSA" (fun _ => [1, 2, 3]) [104] []
    (by intro b hb; simp at hb; omega)

/-- C7 counterexample: with the suite bound to a key, a proof whose
`verificationMethod` is `null` makes `matchProof` throw a `TypeError` of
its own (in JS `typeof null === 'object'`, so the code reads `.id` off
`null`) — a non-delegated throw on a simple non-match, where the claim
says only the delegated call may throw. -/
theorem c7_null_verification_method_throws :
    matchProof "u" [("@context", .str "u")] (.ok true) (some "kid")
        (some .null) = .error .typeError := rfl

/-- C7 as amended: `matchProof` returns a boolean and never throws for a
simple non-match — whatever non-`null` value the proof's
`verificationMethod` has (a string, an object with or without `id`, an
array, a primitive, or absent) — and any error it surfaces is the
delegated base `matchProof`'s own; the sole exception, forced by the
counterexample, is a `null` verification method while the suite is bound
to a key, where `typeof null === 'object'` leads to a `TypeError`. -/
theorem c7_match_proof_throws_only_delegated (contextUrl : String)
    (document : List (String × Json)) (superMatch : Except MErr Bool)
    (keyId : Option String) (vmField : Option Json) (e : MErr)
    (hvm : vmField ≠ some Json.null)
    (he : matchProof contextUrl document superMatch keyId vmField =
      .error e) :
    superMatch = .error e := by
  unfold matchProof at he
  by_cases hctx : includesContext document contextUrl = true
  · rw [if_neg (fun hn => hn hctx)] at he
    cases superMatch with
    | error e2 => exact he
    | ok b =>
      cases b with
      | false => simp at he
      | true =>
        cases keyId with
        | none => simp at he
        | some kid =>
          cases vmField with
          | none => simp at he
          | some j =>
            cases j with
            | null => exact absurd rfl hvm
            | bool b2 => simp at he
            | num r => simp at he
            | str s => simp at he
            | arr l => simp at he
            | obj f => simp at he
  · rw [if_pos hctx] at he
    cases he

/-- C7 witness: a matching context with a delegated failure — the only
error `matchProof` reports is the delegated one. -/
theorem c7_match_proof_throws_only_delegated_witness :
    matchProof "u" [("@context", .str "u")] (.error .delegated) none none =
      .error .delegated ∧
    (Except.error MErr.delegated : Except MErr Bool) =
      .error .delegated :=
  ⟨rfl, c7_match_proof_throws_only_delegated "u" [("@context", .str "u")]
    (.error .delegated) none none .delegated (by simp) rfl⟩

theorem isStr_iff {j : Json} {s : String} :
    isStr j s = true ↔ j = .str s := by
  cases j <;> simp [isStr]

/-- `_includesContext` holds exactly when `@context` is the string
`contextUrl` itself or an array containing it. -/
theorem includesContext_iff (doc : List (String × Json))
    (contextUrl : String) :
    includesContext doc contextUrl = true ↔
      (jsLookup doc "@context" = some (.str contextUrl) ∨
        ∃ l, jsLookup doc "@context" = some (.arr l) ∧
          Json.str contextUrl ∈ l) := by
  unfold includesContext
  cases h : jsLookup doc "@context" with
  | none => simp
  | some j =>
    cases j with
    | str s => simp
    | arr l =>
      simp only [List.any_eq_true, isStr_iff]
      simp
    | null => simp
    | bool b => simp
    | num r => simp
    | obj f => simp

/-- `jsonld.hasValue(vm, 'type', t)` (as modelled) holds exactly when the
declared `type` is the string `t` or an array containing it. -/
theorem hasTypeValue_iff (vm : List (String × Json)) (t : String) :
    hasTypeValue vm t = true ↔
      (jsLookup vm "type" = some (.str t) ∨
        ∃ l, jsLookup vm "type" = some (.arr l) ∧ Json.str t ∈ l) := by
  unfold hasTypeValue
  cases h : jsLookup vm "type" with
  | none => simp
  | some j =>
    cases j with
    | str s => simp [isStr_iff]
    | arr l =>
      simp only [List.any_eq_true, isStr_iff]
      simp
    | null => simp [isStr]
    | bool b => simp [isStr]
    | num r => simp [isStr]
    | obj f => simp [isStr]

/-- C8: `assertVerificationMethod` gates in order — `ContextError` unless
the method's `@context` (string or array) includes the suite's context
url; then `KeyTypeError` unless the declared `type` matches the required
key type; then `RevokedKeyError` whenever a `revoked` property is present
with any (JSON) value; and it returns normally exactly when all three
gates pass. -/
theorem c8_assert_verification_method_gates
    (contextUrl requiredKeyType : String) (vm : List (String × Json)) :
    (assertVerificationMethod contextUrl requiredKeyType vm = .ok () ↔
      includesContext vm contextUrl = true ∧
      hasTypeValue vm requiredKeyType = true ∧
      jsLookup vm "revoked" = none) ∧
    (assertVerificationMethod contextUrl requiredKeyType vm =
        .error .contextError ↔
      includesContext vm contextUrl = false) ∧
    (assertVerificationMethod contextUrl requiredKeyType vm =
        .error .keyTypeError ↔
      includesContext vm contextUrl = true ∧
      hasTypeValue vm requiredKeyType = false) ∧
    (assertVerificationMethod contextUrl requiredKeyType vm =
        .error .revokedKeyError ↔
      includesContext vm contextUrl = true ∧
      hasTypeValue vm requiredKeyType = true ∧
      ∃ r, jsLookup vm "revoked" = some r) := by
  by_cases hc : includesContext vm contextUrl = true
  · by_cases ht : hasTypeValue vm requiredKeyType = true
    · cases hr : jsLookup vm "revoked" with
      | none =>
        have ha : assertVerificationMethod contextUrl requiredKeyType vm =
            .ok () := by
          unfold assertVerificationMethod
          rw [if_neg (fun hn => hn hc), if_neg (fun hn => hn ht), hr]
        simp [ha, hc, ht, hr]
      | some r =>
        have ha : assertVerificationMethod contextUrl requiredKeyType vm =
            .error .revokedKeyError := by
          unfold assertVerificationMethod
          rw [if_neg (fun hn => hn hc), if_neg (fun hn => hn ht), hr]
        simp [ha, hc, ht, hr]
    · have ht' : hasTypeValue vm requiredKeyType = false := by
        simpa using ht
      have ha : assertVerificationMethod contextUrl requiredKeyType vm =
          .error .keyTypeError := by
        unfold assertVerificationMethod
        rw [if_neg (fun hn => hn hc), if_pos ht]
      simp [ha, hc, ht']
  · have hc' : includesContext vm contextUrl = false := by simpa using hc
    have ha : assertVerificationMethod contextUrl requiredKeyType vm =
        .error .contextError := by
      unfold assertVerificationMethod
      rw [if_pos hc]
    simp [ha, hc']

/-- C9: a successful `sign` call adds or overwrites exactly the string
field `jws` of the caller's proof object — every other field reads back
unchanged — and returns that same (updated) proof. -/
theorem c9_sign_frame (alg : String) (signer : List Nat → List Nat)
    (vd : List Nat) (proof : List (String × Json)) (k : String)
    (hk : k ≠ "jws") :
    jsLookup (sign alg signer vd proof) "jws" =
      some (.str (String.mk (signJwsChars alg signer vd))) ∧
    jsLookup (sign alg signer vd proof) k = jsLookup proof k :=
  ⟨sign_jws_lookup alg signer vd proof,
    jsLookup_setField_ne proof "jws" k _ hk⟩

/-- C9 witness: signing a proof that already carries `type` and `created`
fields touches only `jws`. -/
theorem c9_sign_frame_witness :
    jsLookup
        (sign "EdDSA" (fun _ => [1, 2, 3]) [104]
          [("type", .str "Ed25519Signature2018"), ("created", .str "now")])
        "jws" =
      some (.str (String.mk
        (signJwsChars "EdDSA" (fun _ => [1, 2, 3]) [104]))) ∧
    jsLookup
        (sign "EdDSA" (fun _ => [1, 2, 3]) [104]
          [("type", .str "Ed25519Signature2018"), ("created", .str "now")])
        "created" =
      jsLookup
        [("type", .str "Ed25519Signature2018"), ("created", .str "now")]
        "created" :=
  c9_sign_frame "EdDSA" (fun _ => [1, 2, 3]) [104]
    [("type", .str "Ed25519Signature2018"), ("created", .str "now")]
    "created" (by decide)

/-- C10 (implicit): in `verifySignature`, once the header segment has
been decoded and parsed, the distinct `Invalid JWS header.` error is
raised exactly when the parsed JSON value is `null`, a boolean, a number,
or a string; an array satisfies `header && typeof header === 'object'`
at runtime and is judged only by the subsequent header validation and
signature steps, never by this guard. -/
theorem c10_invalid_header_error_iff_primitive (alg : String)
    (v? : Option (List Nat → List Nat → Bool))
    (kv : List Nat → List Nat → Bool) (vd : List Nat) (hb : List Nat)
    (hseg pseg sseg hcs : List Char) (header : Json)
    (hnd1 : '.' ∉ hseg) (hnd2 : '.' ∉ pseg) (hnd3 : '.' ∉ sseg)
    (hdec : b64decode hseg = some hb)
    (hutf : utf8DecodeBytes hb = some hcs)
    (hjson : jsonParseChars hcs = some header) :
    verifySignature alg v? kv vd
        (some (.str (String.mk (hseg ++ '.' :: (pseg ++ '.' :: sseg))))) =
      .error .invalidHeaderError ↔
      (header = .null ∨ (∃ b, header = .bool b) ∨
        (∃ r, header = .num r) ∨ (∃ s, header = .str s)) := by
  rw [verifySignature_parse alg v? kv vd hb hseg pseg sseg hcs header
    hnd1 hnd2 hnd3 hdec hutf hjson]
  unfold verifyWithHeader
  cases header with
  | null => simp [jsTruthy, jsTypeofObject]
  | bool b => simp [jsTruthy, jsTypeofObject]
  | num r => simp [jsTruthy, jsTypeofObject]
  | str s => simp [jsTruthy, jsTypeofObject]
  | arr l =>
    rw [if_neg (by simp [jsTruthy, jsTypeofObject])]
    apply iff_of_false
    · split_ifs
      · simp
      · cases hb2 : b64decode sseg <;> simp [hb2]
    · simp
  | obj f =>
    rw [if_neg (by simp [jsTruthy, jsTypeofObject])]
    apply iff_of_false
    · split_ifs
      · simp
      · cases hb2 : b64decode sseg <;> simp [hb2]
    · simp

set_option maxRecDepth 10000 in
/-- C10 witness: a `jws` whose header segment decodes to the JSON array
`[1]` — verification proceeds past the non-object guard (no
`Invalid JWS header.` error), as the right side of the equivalence is
false for an array. -/
theorem c10_invalid_header_error_iff_primitive_witness :
    verifySignature "EdDSA" (some (fun _ _ => true)) (fun _ _ => false)
        [104]
        (some (.str (String.mk
          (("WzFd").data ++ '.' :: ([] ++ '.' :: ("AQID").data))))) =
      .error .invalidHeaderError ↔
      ((Json.arr [.num "1"]) = .null ∨
        (∃ b, (Json.arr [.num "1"]) = .bool b) ∨
        (∃ r, (Json.arr [.num "1"]) = .num r) ∨
        (∃ s, (Json.arr [.num "1"]) = .str s)) :=
  c10_invalid_header_error_iff_primitive "EdDSA"
    (some (fun _ _ => true)) (fun _ _ => false) [104] [91, 49, 93]
    (("WzFd").data) [] (("AQID").data) (("[1]").data)
    (Json.arr [.num "1"])
    (by decide) (by decide) (by decide) rfl rfl rfl

end JwsLds
